import Mathlib

/-!
Shallow embedding of the pairing/session core of `http-volume-control-api`
(`src/services/pairing-service.ts`, types in `src/types/pairing.ts`).

Timestamps are naturals counting milliseconds (JavaScript `Date.getTime()`).
The three `Map`s of the service are modelled as association lists with
JavaScript `Map` semantics: `mapGet` returns the first binding, `mapSet`
replaces an existing binding in place or appends, `mapDelete` removes the
binding.  Random generation (`generatePairingCode`, `generateSessionId`,
`generateToken`) is modelled by passing the generated strings as explicit
oracle arguments.  Configuration read from `process.env` is a `Config`
record.  Persistence (`saveSessions`) only mirrors the in-memory state to
disk and is not modelled.
-/

deriving instance DecidableEq for Except

namespace PairingSvc

/-- JavaScript `toUpperCase()` restricted to ASCII, written as a character
map so that it evaluates by kernel reduction (the pairing-code alphabet is
ASCII, where it agrees with `toUpperCase`). -/
def jsToUpper (s : String) : String := String.mk (s.data.map Char.toUpper)

/-- Configuration values parsed from the environment in `pairing-service.ts`
(`PAIRING_CODE_EXPIRY`, `PAIRING_MAX_ATTEMPTS`, `SESSION_MAX_PER_USER`,
`SESSION_TOKEN_EXPIRY`, `SESSION_SLIDING_EXPIRY`), with the code's defaults. -/
structure Config where
  pairingCodeExpiry : Nat := 300
  pairingMaxAttempts : Nat := 3
  sessionMaxCount : Nat := 10
  sessionTokenExpiry : Nat := 2592000
  sessionSlidingExpiry : Bool := false
deriving Repr, DecidableEq

/-- `PairingCode` from `src/types/pairing.ts`. -/
structure PairingCode where
  code : String
  sessionId : String
  createdAt : Nat
  expiresAt : Nat
  deviceName : Option String
  ipAddress : Option String
deriving Repr, DecidableEq

/-- `Session` from `src/types/pairing.ts` (the service itself never sets
`userAgent`, so it is omitted). -/
structure Session where
  id : String
  token : String
  deviceName : String
  createdAt : Nat
  lastUsedAt : Nat
  expiresAt : Nat
  ipAddress : Option String
deriving Repr, DecidableEq

/-- An entry of `rateLimitMap`: `{ attempts: number; resetAt: Date }`. -/
structure RateLimit where
  attempts : Nat
  resetAt : Nat
deriving Repr, DecidableEq

/-- Association-list model of a JavaScript `Map` keyed by strings. -/
abbrev AssocMap (α : Type) := List (String × α)

/-- `Map.get`: first binding of the key, if any. -/
def mapGet {α : Type} : AssocMap α → String → Option α
  | [], _ => none
  | (k, v) :: rest, key => if k = key then some v else mapGet rest key

/-- `Map.set`: replace the existing binding in place, else append. -/
def mapSet {α : Type} : AssocMap α → String → α → AssocMap α
  | [], key, val => [(key, val)]
  | (k, v) :: rest, key, val =>
      if k = key then (k, val) :: rest else (k, v) :: mapSet rest key val

/-- `Map.delete`: drop the binding of the key. -/
def mapDelete {α : Type} (m : AssocMap α) (key : String) : AssocMap α :=
  m.filter (fun e => e.1 ≠ key)

/-- The mutable state of a `PairingService` instance: the three maps. -/
structure ServiceState where
  pairingCodes : AssocMap PairingCode
  sessions : AssocMap Session
  rateLimitMap : AssocMap RateLimit
deriving Repr, DecidableEq

/-- The `ERROR_CODES` thrown by the service. -/
inductive ErrorCode where
  | PAIRING_CODE_INVALID
  | PAIRING_CODE_EXPIRED
  | PAIRING_RATE_LIMITED
  | SESSION_INVALID
  | SESSION_EXPIRED
  | SESSION_LIMIT_REACHED
  | UNAUTHORIZED
deriving Repr, DecidableEq

/-- JavaScript `a || b` on optional strings: the empty string is falsy. -/
def jsOrElse (a b : Option String) : Option String :=
  match a with
  | some s => if s = "" then b else some s
  | none => b

/-- JavaScript `a || d` with a string default: the empty string is falsy. -/
def jsOrDefault (a : Option String) (d : String) : String :=
  match a with
  | some s => if s = "" then d else s
  | none => d

/-- `cleanupExpiredCodes`: delete every pairing code with `expiresAt < now`. -/
def cleanupExpiredCodes (st : ServiceState) (now : Nat) : ServiceState :=
  { st with pairingCodes := st.pairingCodes.filter (fun e => decide (now ≤ e.2.expiresAt)) }

/-- `cleanupExpiredSessions`: delete every session with `expiresAt < now`. -/
def cleanupExpiredSessions (st : ServiceState) (now : Nat) : ServiceState :=
  { st with sessions := st.sessions.filter (fun e => decide (now ≤ e.2.expiresAt)) }

/-- `cleanupRateLimits`: delete every window with `resetAt < now`. -/
def cleanupRateLimits (st : ServiceState) (now : Nat) : ServiceState :=
  { st with rateLimitMap := st.rateLimitMap.filter (fun e => decide (now ≤ e.2.resetAt)) }

/-- `checkRateLimit(ipAddress)`: reset the window (to one attempt, expiring
in 60 s) when absent or past `resetAt`; deny once `attempts` has reached
`PAIRING_MAX_ATTEMPTS`; otherwise increment and allow. -/
def checkRateLimit (cfg : Config) (st : ServiceState) (ipAddress : String) (now : Nat) :
    Bool × ServiceState :=
  match mapGet st.rateLimitMap ipAddress with
  | none =>
      (true, { st with rateLimitMap := mapSet st.rateLimitMap ipAddress ⟨1, now + 60000⟩ })
  | some limit =>
      if limit.resetAt < now then
        (true, { st with rateLimitMap := mapSet st.rateLimitMap ipAddress ⟨1, now + 60000⟩ })
      else if cfg.pairingMaxAttempts ≤ limit.attempts then
        (false, st)
      else
        (true,
         { st with
            rateLimitMap := mapSet st.rateLimitMap ipAddress ⟨limit.attempts + 1, limit.resetAt⟩ })

/-- The triple returned by `initiatePairing`. -/
structure InitiateResult where
  code : String
  sessionId : String
  expiresIn : Nat
deriving Repr, DecidableEq

/-- `initiatePairing(deviceName?, ipAddress?)`.  The generated code and
session id are the oracle arguments `genCode`, `genSessionId`.  The rate
limiter runs only when `ipAddress` is truthy (present and non-empty). -/
def initiatePairing (cfg : Config) (st : ServiceState)
    (deviceName ipAddress : Option String) (genCode genSessionId : String) (now : Nat) :
    Except ErrorCode InitiateResult × ServiceState :=
  let rl : Bool × ServiceState :=
    match ipAddress with
    | some ip => if ip = "" then (true, st) else checkRateLimit cfg st ip now
    | none => (true, st)
  match rl with
  | (false, st') => (.error .PAIRING_RATE_LIMITED, st')
  | (true, st') =>
      let expiresAt := now + cfg.pairingCodeExpiry * 1000
      let pc : PairingCode :=
        { code := genCode, sessionId := genSessionId, createdAt := now,
          expiresAt := expiresAt, deviceName := deviceName, ipAddress := ipAddress }
      (.ok { code := genCode, sessionId := genSessionId, expiresIn := cfg.pairingCodeExpiry },
       { st' with pairingCodes := mapSet st'.pairingCodes genCode pc })

/-- `completePairing(code, sessionId, ipAddress?)`.  The generated token is
the oracle argument `genToken`.  Note that the source looks the code up
under `code.toUpperCase()` but performs both deletes (expiry, consumption)
with the raw `code` as supplied by the caller. -/
def completePairing (cfg : Config) (st : ServiceState)
    (code sessionId : String) (ipAddress : Option String) (genToken : String) (now : Nat) :
    Except ErrorCode Session × ServiceState :=
  match mapGet st.pairingCodes (jsToUpper code) with
  | none => (.error .PAIRING_CODE_INVALID, st)
  | some pairingCode =>
      if pairingCode.sessionId ≠ sessionId then
        (.error .PAIRING_CODE_INVALID, st)
      else if pairingCode.expiresAt < now then
        (.error .PAIRING_CODE_EXPIRED,
         { st with pairingCodes := mapDelete st.pairingCodes code })
      else if cfg.sessionMaxCount ≤ st.sessions.length then
        (.error .SESSION_LIMIT_REACHED, st)
      else
        let session : Session :=
          { id := sessionId, token := genToken,
            deviceName := jsOrDefault pairingCode.deviceName "Unknown Device",
            createdAt := now, lastUsedAt := now,
            expiresAt := now + cfg.sessionTokenExpiry * 1000,
            ipAddress := jsOrElse ipAddress pairingCode.ipAddress }
        (.ok session,
         { st with sessions := mapSet st.sessions sessionId session,
                   pairingCodes := mapDelete st.pairingCodes code })

/-- The update a successful validation applies to the found session: set
`lastUsedAt = now` and, when `SESSION_SLIDING_EXPIRY` is `'true'`, also
advance `expiresAt = now + sessionTokenExpiry * 1000`. -/
def touched (cfg : Config) (s : Session) (now : Nat) : Session :=
  { s with
      lastUsedAt := now,
      expiresAt :=
        if cfg.sessionSlidingExpiry then now + cfg.sessionTokenExpiry * 1000
        else s.expiresAt }

/-- The loop body of `validateSession`: scan the session entries in order
for the first entry whose `token` matches; delete it when expired, else
touch it (see `touched`). -/
def validateScan (cfg : Config) (token : String) (now : Nat) :
    AssocMap Session → Option Session × AssocMap Session
  | [] => (none, [])
  | (id, session) :: rest =>
      if session.token = token then
        if session.expiresAt < now then
          (none, rest)
        else
          (some (touched cfg session now), (id, touched cfg session now) :: rest)
      else
        let r := validateScan cfg token now rest
        (r.1, (id, session) :: r.2)

/-- `validateSession(token)`: total, returns `none` for absent, revoked or
expired tokens — it never throws. -/
def validateSession (cfg : Config) (st : ServiceState) (token : String) (now : Nat) :
    Option Session × ServiceState :=
  let r := validateScan cfg token now st.sessions
  (r.1, { st with sessions := r.2 })

/-- `getSessions()`: sweep expired sessions, then list the values. -/
def getSessions (st : ServiceState) (now : Nat) : List Session × ServiceState :=
  let st' := cleanupExpiredSessions st now
  (st'.sessions.map Prod.snd, st')

/-- `getSession(sessionId)`. -/
def getSession (st : ServiceState) (sessionId : String) : Option Session :=
  mapGet st.sessions sessionId

/-- `revokeSession(sessionId)`: delete and report whether it existed. -/
def revokeSession (st : ServiceState) (sessionId : String) : Bool × ServiceState :=
  ((mapGet st.sessions sessionId).isSome,
   { st with sessions := mapDelete st.sessions sessionId })

/-- `revokeAllSessions()`: clear, returning the prior count. -/
def revokeAllSessions (st : ServiceState) : Nat × ServiceState :=
  (st.sessions.length, { st with sessions := [] })

/-- The public operations plus the sweeps of the cleanup interval, as one
type, for invariant statements ranging over every operation. -/
inductive Op where
  | initiate (deviceName ipAddress : Option String) (genCode genSessionId : String)
  | complete (code sessionId : String) (ipAddress : Option String) (genToken : String)
  | validate (token : String)
  | revoke (sessionId : String)
  | revokeAll
  | listSessions
  | getOne (sessionId : String)
  | sweepCodes
  | sweepSessions
  | sweepRateLimits
deriving Repr, DecidableEq

/-- The state after running one operation at time `now`. -/
def applyOp (cfg : Config) (st : ServiceState) (op : Op) (now : Nat) : ServiceState :=
  match op with
  | .initiate d ip c s => (initiatePairing cfg st d ip c s now).2
  | .complete c s ip t => (completePairing cfg st c s ip t now).2
  | .validate t => (validateSession cfg st t now).2
  | .revoke id => (revokeSession st id).2
  | .revokeAll => (revokeAllSessions st).2
  | .listSessions => (getSessions st now).2
  | .getOne _ => st
  | .sweepCodes => cleanupExpiredCodes st now
  | .sweepSessions => cleanupExpiredSessions st now
  | .sweepRateLimits => cleanupRateLimits st now

/-! ### Map lemmas -/

theorem mapGet_mapSet {α : Type} (m : AssocMap α) (key key2 : String) (v : α) :
    mapGet (mapSet m key v) key2 = if key = key2 then some v else mapGet m key2 := by
  induction m with
  | nil => by_cases h : key = key2 <;> simp [mapSet, mapGet, h]
  | cons e rest ih =>
    obtain ⟨k, w⟩ := e
    by_cases hk : k = key
    · subst hk
      by_cases h2 : k = key2 <;> simp [mapSet, mapGet, h2]
    · by_cases h2 : k = key2
      · subst h2
        have hkey : ¬ key = k := fun h => hk h.symm
        simp [mapSet, mapGet, hk, hkey]
      · simp [mapSet, mapGet, hk, h2, ih]

theorem mapGet_mapSet_self {α : Type} (m : AssocMap α) (key : String) (v : α) :
    mapGet (mapSet m key v) key = some v := by
  simp [mapGet_mapSet]

theorem mapGet_mapDelete {α : Type} (m : AssocMap α) (key key2 : String) :
    mapGet (mapDelete m key) key2 = if key2 = key then none else mapGet m key2 := by
  induction m with
  | nil => by_cases h : key2 = key <;> simp [mapDelete, mapGet, h]
  | cons e rest ih =>
    obtain ⟨k, w⟩ := e
    simp only [mapDelete, decide_not] at ih ⊢
    rw [List.filter_cons]
    by_cases hk : k = key
    · subst hk
      by_cases h2 : key2 = k
      · subst h2
        simpa using ih
      · have h2' : ¬ k = key2 := fun h => h2 h.symm
        simp [mapGet, h2', h2, ih]
    · by_cases h2 : key2 = k
      · subst h2
        have hne : ¬ key2 = key := hk
        simp [mapGet, hne]
      · have h2' : ¬ k = key2 := fun h => h2 h.symm
        simp [mapGet, hk, h2', ih]

theorem mapGet_mem {α : Type} {m : AssocMap α} {key : String} {v : α}
    (h : mapGet m key = some v) : (key, v) ∈ m := by
  induction m with
  | nil => simp [mapGet] at h
  | cons e rest ih =>
    obtain ⟨k, w⟩ := e
    by_cases hk : k = key
    · subst hk
      simp [mapGet] at h
      subst h
      exact List.mem_cons_self _ _
    · simp [mapGet, hk] at h
      exact List.mem_cons_of_mem _ (ih h)

theorem mapSet_length_le {α : Type} (m : AssocMap α) (key : String) (v : α) :
    (mapSet m key v).length ≤ m.length + 1 := by
  induction m with
  | nil => simp [mapSet]
  | cons e rest ih =>
    obtain ⟨k, w⟩ := e
    by_cases hk : k = key <;> simp [mapSet, hk] <;> omega

theorem mapGet_filter_nodup {α : Type} {m : AssocMap α} {p : String × α → Bool}
    {key : String} {v : α} (hnd : (m.map Prod.fst).Nodup)
    (h : mapGet (m.filter p) key = some v) : mapGet m key = some v := by
  induction m with
  | nil => simpa using h
  | cons e rest ih =>
    obtain ⟨k, w⟩ := e
    rw [List.filter_cons] at h
    simp only [List.map_cons, List.nodup_cons] at hnd
    by_cases hk : k = key
    · subst hk
      by_cases hp : p (k, w) = true
      · rw [if_pos hp] at h
        simp [mapGet] at h ⊢
        exact h
      · rw [if_neg hp] at h
        exfalso
        have hmem : (k, v) ∈ rest.filter p := mapGet_mem h
        have hin : (k, v) ∈ rest := List.mem_of_mem_filter hmem
        exact hnd.1 (by simpa using List.mem_map_of_mem Prod.fst hin)
    · by_cases hp : p (k, w) = true
      · rw [if_pos hp] at h
        simp only [mapGet, if_neg hk] at h ⊢
        exact ih hnd.2 h
      · rw [if_neg hp] at h
        simp only [mapGet, if_neg hk]
        exact ih hnd.2 h

/-! ### Scan lemmas for `validateSession` -/

theorem validateScan_no_match (cfg : Config) (tok : String) (now : Nat)
    (l : AssocMap Session) (h : ∀ e ∈ l, e.2.token ≠ tok) :
    validateScan cfg tok now l = (none, l) := by
  induction l with
  | nil => simp [validateScan]
  | cons e rest ih =>
    obtain ⟨k, s⟩ := e
    have hne : s.token ≠ tok := h (k, s) (List.mem_cons_self _ _)
    have hrest : ∀ e ∈ rest, e.2.token ≠ tok := fun e he => h e (List.mem_cons_of_mem _ he)
    simp [validateScan, hne, ih hrest]

theorem validateScan_append (cfg : Config) (tok : String) (now : Nat)
    (pre l : AssocMap Session) (h : ∀ e ∈ pre, e.2.token ≠ tok) :
    validateScan cfg tok now (pre ++ l) =
      ((validateScan cfg tok now l).1, pre ++ (validateScan cfg tok now l).2) := by
  induction pre with
  | nil => simp [validateScan]
  | cons e rest ih =>
    obtain ⟨k, s⟩ := e
    have hne : s.token ≠ tok := h (k, s) (List.mem_cons_self _ _)
    have hrest : ∀ e ∈ rest, e.2.token ≠ tok := fun e he => h e (List.mem_cons_of_mem _ he)
    simp [validateScan, hne, ih hrest]

theorem validateScan_length_le (cfg : Config) (tok : String) (now : Nat)
    (l : AssocMap Session) : (validateScan cfg tok now l).2.length ≤ l.length := by
  induction l with
  | nil => simp [validateScan]
  | cons e rest ih =>
    obtain ⟨k, s⟩ := e
    by_cases hm : s.token = tok
    · by_cases hexp : s.expiresAt < now <;> simp [validateScan, hm, hexp] <;> omega
    · simp [validateScan, hm]
      omega

/-! ### Step lemmas for the rate limiter -/

theorem checkRateLimit_fresh (cfg : Config) (st : ServiceState) (ip : String) (now : Nat)
    (h : mapGet st.rateLimitMap ip = none) :
    checkRateLimit cfg st ip now =
      (true, { st with rateLimitMap := mapSet st.rateLimitMap ip ⟨1, now + 60000⟩ }) := by
  simp [checkRateLimit, h]

theorem checkRateLimit_increment (cfg : Config) (st : ServiceState) (ip : String) (now : Nat)
    (limit : RateLimit) (h : mapGet st.rateLimitMap ip = some limit)
    (hr : ¬ limit.resetAt < now) (ha : limit.attempts < cfg.pairingMaxAttempts) :
    checkRateLimit cfg st ip now =
      (true,
       { st with
          rateLimitMap := mapSet st.rateLimitMap ip ⟨limit.attempts + 1, limit.resetAt⟩ }) := by
  simp [checkRateLimit, h, hr, Nat.not_le.mpr ha]

theorem checkRateLimit_denied (cfg : Config) (st : ServiceState) (ip : String) (now : Nat)
    (limit : RateLimit) (h : mapGet st.rateLimitMap ip = some limit)
    (hr : ¬ limit.resetAt < now) (ha : cfg.pairingMaxAttempts ≤ limit.attempts) :
    checkRateLimit cfg st ip now = (false, st) := by
  simp [checkRateLimit, h, hr, ha]

theorem checkRateLimit_reset (cfg : Config) (st : ServiceState) (ip : String) (now : Nat)
    (limit : RateLimit) (h : mapGet st.rateLimitMap ip = some limit)
    (hr : limit.resetAt < now) :
    checkRateLimit cfg st ip now =
      (true, { st with rateLimitMap := mapSet st.rateLimitMap ip ⟨1, now + 60000⟩ }) := by
  simp [checkRateLimit, h, hr]

theorem initiatePairing_allowed (cfg : Config) (st : ServiceState) (d : Option String)
    (ip c s : String) (now : Nat) (hip : ¬ ip = "")
    (h : (checkRateLimit cfg st ip now).1 = true) :
    (initiatePairing cfg st d (some ip) c s now).1 = .ok ⟨c, s, cfg.pairingCodeExpiry⟩ ∧
    (initiatePairing cfg st d (some ip) c s now).2.rateLimitMap =
      (checkRateLimit cfg st ip now).2.rateLimitMap := by
  unfold initiatePairing
  cases hcr : checkRateLimit cfg st ip now with
  | mk b st' =>
    rw [hcr] at h
    subst h
    simp [hip, hcr]

theorem initiatePairing_denied (cfg : Config) (st : ServiceState) (d : Option String)
    (ip c s : String) (now : Nat) (hip : ¬ ip = "")
    (h : (checkRateLimit cfg st ip now).1 = false) :
    initiatePairing cfg st d (some ip) c s now =
      (.error .PAIRING_RATE_LIMITED, (checkRateLimit cfg st ip now).2) := by
  unfold initiatePairing
  cases hcr : checkRateLimit cfg st ip now with
  | mk b st' =>
    rw [hcr] at h
    subst h
    simp [hip, hcr]

/-! ### Concrete scenario used by the counterexample-style theorems -/

/-- The configuration with every default of the source. -/
def cfg0 : Config := {}

/-- The state holding the single pairing code `"A7K9M2"` (stored uppercase,
as `generatePairingCode` only draws from an uppercase alphabet), correlation
id `"s1"`, created at 0, expiring at 300000 ms. -/
def pcPhone : PairingCode :=
  { code := "A7K9M2", sessionId := "s1", createdAt := 0, expiresAt := 300000,
    deviceName := some "phone", ipAddress := none }

/-- Service state with exactly the one pairing code and nothing else. -/
def stOne : ServiceState := ⟨[("A7K9M2", pcPhone)], [], []⟩

/-! ### Claims -/

/-- Claim C1 (refuted — code bug): a successful `completePairing` is meant to
consume the code, but the source deletes with the raw supplied `code` while
the map is keyed by the uppercased code, so a completion that supplied the
code in lowercase leaves the stored entry behind and a second completion
with the same code succeeds instead of failing with `PAIRING_CODE_INVALID`. -/
theorem completePairing_lowercase_reuse :
    (completePairing cfg0 stOne "a7k9m2" "s1" none "tok1" 1000).1 =
      .ok { id := "s1", token := "tok1", deviceName := "phone", createdAt := 1000,
            lastUsedAt := 1000, expiresAt := 2592001000, ipAddress := none } ∧
    (completePairing cfg0 stOne "a7k9m2" "s1" none "tok1" 1000).2.pairingCodes =
      [("A7K9M2", pcPhone)] ∧
    (completePairing cfg0 (completePairing cfg0 stOne "a7k9m2" "s1" none "tok1" 1000).2
        "a7k9m2" "s1" none "tok2" 2000).1 =
      .ok { id := "s1", token := "tok2", deviceName := "phone", createdAt := 2000,
            lastUsedAt := 2000, expiresAt := 2592002000, ipAddress := none } :=
  ⟨rfl, rfl, rfl⟩

/-- Claim C2 (refuted — code bug): an expired completion attempt is meant to
delete the stored entry regardless of the letter case of the supplied code,
but the source deletes with the raw supplied `code` while the map is keyed
by the uppercased code: at time 400000 (past the 300000 expiry) a lowercase
attempt fails with `PAIRING_CODE_EXPIRED` yet leaves the entry in place,
whereas the same attempt spelled uppercase does delete it. -/
theorem completePairing_expired_lowercase_no_delete :
    (completePairing cfg0 stOne "a7k9m2" "s1" none "tok1" 400000).1 =
      .error .PAIRING_CODE_EXPIRED ∧
    (completePairing cfg0 stOne "a7k9m2" "s1" none "tok1" 400000).2.pairingCodes =
      [("A7K9M2", pcPhone)] ∧
    (completePairing cfg0 stOne "A7K9M2" "s1" none "tok1" 400000).1 =
      .error .PAIRING_CODE_EXPIRED ∧
    (completePairing cfg0 stOne "A7K9M2" "s1" none "tok1" 400000).2.pairingCodes = [] :=
  ⟨rfl, rfl, rfl, rfl⟩

/-- Claim C6: `completePairing` looks the supplied code up under its
uppercased form, and it fails with `PAIRING_CODE_INVALID` exactly when the
lookup misses or the stored correlation id differs from the supplied one;
in both of those cases the whole state is returned unchanged. -/
theorem completePairing_invalid_iff (cfg : Config) (st : ServiceState)
    (code sessionId : String) (ip : Option String) (tok : String) (now : Nat) :
    ((completePairing cfg st code sessionId ip tok now).1 = .error .PAIRING_CODE_INVALID ↔
      mapGet st.pairingCodes (jsToUpper code) = none ∨
        ∃ pc, mapGet st.pairingCodes (jsToUpper code) = some pc ∧ pc.sessionId ≠ sessionId) ∧
    ((mapGet st.pairingCodes (jsToUpper code) = none ∨
        ∃ pc, mapGet st.pairingCodes (jsToUpper code) = some pc ∧ pc.sessionId ≠ sessionId) →
      completePairing cfg st code sessionId ip tok now =
        (.error .PAIRING_CODE_INVALID, st)) := by
  unfold completePairing
  cases hget : mapGet st.pairingCodes (jsToUpper code) with
  | none => simp
  | some pc =>
    by_cases hsid : pc.sessionId = sessionId
    · subst hsid
      by_cases hexp : pc.expiresAt < now
      · simp [hexp]
      · by_cases hcap : cfg.sessionMaxCount ≤ st.sessions.length
        · simp [hexp, hcap]
        · simp [hexp, hcap]
    · simp [hsid]

/-- Witness for `completePairing_invalid_iff`: on the empty state every
completion fails with `PAIRING_CODE_INVALID` and leaves the state alone. -/
theorem completePairing_invalid_iff_witness :
    completePairing cfg0 ⟨[], [], []⟩ "a7k9m2" "s1" none "tok1" 0 =
      (.error .PAIRING_CODE_INVALID, ⟨[], [], []⟩) :=
  (completePairing_invalid_iff cfg0 ⟨[], [], []⟩ "a7k9m2" "s1" none "tok1" 0).2 (Or.inl rfl)

/-- Claim C3: with `pairingMaxAttempts = 3`, four `initiatePairing` calls
from the same, previously unseen, origin address within one rate-limit
window (60 s) yield allowed, allowed, allowed, denied — the third attempt
is the last one allowed — and a fifth call strictly after the window's
`resetAt` is allowed again, resetting the window to one attempt. -/
theorem initiatePairing_rate_limit_sequence (cfg : Config)
    (hmax : cfg.pairingMaxAttempts = 3) (st0 : ServiceState) (ip : String)
    (hip : ¬ ip = "") (hfresh : mapGet st0.rateLimitMap ip = none)
    (d : Option String) (c s : String) (t0 t1 t2 t3 t4 : Nat)
    (h01 : t1 ≤ t0 + 60000) (h02 : t2 ≤ t0 + 60000) (h03 : t3 ≤ t0 + 60000)
    (h4 : t0 + 60000 < t4) :
    let a0 := initiatePairing cfg st0 d (some ip) c s t0
    let a1 := initiatePairing cfg a0.2 d (some ip) c s t1
    let a2 := initiatePairing cfg a1.2 d (some ip) c s t2
    let a3 := initiatePairing cfg a2.2 d (some ip) c s t3
    let a4 := initiatePairing cfg a3.2 d (some ip) c s t4
    a0.1 = .ok ⟨c, s, cfg.pairingCodeExpiry⟩ ∧
    a1.1 = .ok ⟨c, s, cfg.pairingCodeExpiry⟩ ∧
    a2.1 = .ok ⟨c, s, cfg.pairingCodeExpiry⟩ ∧
    a3.1 = .error .PAIRING_RATE_LIMITED ∧
    a4.1 = .ok ⟨c, s, cfg.pairingCodeExpiry⟩ ∧
    mapGet a4.2.rateLimitMap ip = some ⟨1, t4 + 60000⟩ := by
  intro a0 a1 a2 a3 a4
  have e0 := checkRateLimit_fresh cfg st0 ip t0 hfresh
  have i0 := initiatePairing_allowed cfg st0 d ip c s t0 hip (by rw [e0])
  have m1 : mapGet a0.2.rateLimitMap ip = some ⟨1, t0 + 60000⟩ := by
    show mapGet (initiatePairing cfg st0 d (some ip) c s t0).2.rateLimitMap ip = _
    rw [i0.2, e0]
    exact mapGet_mapSet_self _ _ _
  have e1 := checkRateLimit_increment cfg a0.2 ip t1 ⟨1, t0 + 60000⟩ m1
      (by show ¬ t0 + 60000 < t1; omega)
      (by show (1 : Nat) < cfg.pairingMaxAttempts; omega)
  have i1 := initiatePairing_allowed cfg a0.2 d ip c s t1 hip (by rw [e1])
  have m2 : mapGet a1.2.rateLimitMap ip = some ⟨2, t0 + 60000⟩ := by
    show mapGet (initiatePairing cfg a0.2 d (some ip) c s t1).2.rateLimitMap ip = _
    rw [i1.2, e1]
    exact mapGet_mapSet_self _ _ _
  have e2 := checkRateLimit_increment cfg a1.2 ip t2 ⟨2, t0 + 60000⟩ m2
      (by show ¬ t0 + 60000 < t2; omega)
      (by show (2 : Nat) < cfg.pairingMaxAttempts; omega)
  have i2 := initiatePairing_allowed cfg a1.2 d ip c s t2 hip (by rw [e2])
  have m3 : mapGet a2.2.rateLimitMap ip = some ⟨3, t0 + 60000⟩ := by
    show mapGet (initiatePairing cfg a1.2 d (some ip) c s t2).2.rateLimitMap ip = _
    rw [i2.2, e2]
    exact mapGet_mapSet_self _ _ _
  have e3 := checkRateLimit_denied cfg a2.2 ip t3 ⟨3, t0 + 60000⟩ m3
      (by show ¬ t0 + 60000 < t3; omega)
      (by show cfg.pairingMaxAttempts ≤ (3 : Nat); omega)
  have i3 := initiatePairing_denied cfg a2.2 d ip c s t3 hip (by rw [e3])
  have r3 : a3.1 = .error .PAIRING_RATE_LIMITED := by
    show (initiatePairing cfg a2.2 d (some ip) c s t3).1 = _
    rw [i3]
  have m4 : mapGet a3.2.rateLimitMap ip = some ⟨3, t0 + 60000⟩ := by
    show mapGet (initiatePairing cfg a2.2 d (some ip) c s t3).2.rateLimitMap ip = _
    rw [i3, e3]
    exact m3
  have e4 := checkRateLimit_reset cfg a3.2 ip t4 ⟨3, t0 + 60000⟩ m4
      (by show t0 + 60000 < t4; omega)
  have i4 := initiatePairing_allowed cfg a3.2 d ip c s t4 hip (by rw [e4])
  have m5 : mapGet a4.2.rateLimitMap ip = some ⟨1, t4 + 60000⟩ := by
    show mapGet (initiatePairing cfg a3.2 d (some ip) c s t4).2.rateLimitMap ip = _
    rw [i4.2, e4]
    exact mapGet_mapSet_self _ _ _
  exact ⟨i0.1, i1.1, i2.1, r3, i4.1, m5⟩

/-- Witness for `initiatePairing_rate_limit_sequence`: the default
configuration (three attempts per window), a fresh address, calls at
times 0, 1, 2, 3 and 60001 ms. -/
theorem initiatePairing_rate_limit_sequence_witness :
    let a0 := initiatePairing cfg0 ⟨[], [], []⟩ none (some "1.2.3.4") "C" "S" 0
    let a1 := initiatePairing cfg0 a0.2 none (some "1.2.3.4") "C" "S" 1
    let a2 := initiatePairing cfg0 a1.2 none (some "1.2.3.4") "C" "S" 2
    let a3 := initiatePairing cfg0 a2.2 none (some "1.2.3.4") "C" "S" 3
    let a4 := initiatePairing cfg0 a3.2 none (some "1.2.3.4") "C" "S" 60001
    a0.1 = .ok ⟨"C", "S", cfg0.pairingCodeExpiry⟩ ∧
    a1.1 = .ok ⟨"C", "S", cfg0.pairingCodeExpiry⟩ ∧
    a2.1 = .ok ⟨"C", "S", cfg0.pairingCodeExpiry⟩ ∧
    a3.1 = .error .PAIRING_RATE_LIMITED ∧
    a4.1 = .ok ⟨"C", "S", cfg0.pairingCodeExpiry⟩ ∧
    mapGet a4.2.rateLimitMap "1.2.3.4" = some ⟨1, 60001 + 60000⟩ :=
  initiatePairing_rate_limit_sequence cfg0 rfl ⟨[], [], []⟩ "1.2.3.4" (by decide) rfl
    none "C" "S" 0 1 2 3 60001 (by omega) (by omega) (by omega) (by omega)

/-! ### Frame lemmas on the sessions map -/

theorem checkRateLimit_sessions (cfg : Config) (st : ServiceState) (ip : String) (now : Nat) :
    (checkRateLimit cfg st ip now).2.sessions = st.sessions := by
  unfold checkRateLimit
  cases mapGet st.rateLimitMap ip with
  | none => rfl
  | some limit =>
    by_cases h : limit.resetAt < now
    · simp [h]
    · by_cases h2 : cfg.pairingMaxAttempts ≤ limit.attempts <;> simp [h, h2]

theorem initiatePairing_sessions (cfg : Config) (st : ServiceState)
    (d ip : Option String) (c s : String) (now : Nat) :
    (initiatePairing cfg st d ip c s now).2.sessions = st.sessions := by
  unfold initiatePairing
  cases ip with
  | none => rfl
  | some a =>
    by_cases ha : a = ""
    · simp [ha]
    · have hs := checkRateLimit_sessions cfg st a now
      cases hcr : checkRateLimit cfg st a now with
      | mk b st' =>
        rw [hcr] at hs
        cases b <;> simp [ha, hcr] <;> exact hs

/-- At capacity — with a valid, matching, unexpired code — `completePairing`
fails with `SESSION_LIMIT_REACHED` and returns the state unchanged. -/
theorem completePairing_at_capacity (cfg : Config) (st : ServiceState)
    (code sid : String) (ip : Option String) (tok : String) (now : Nat) (pc : PairingCode)
    (hget : mapGet st.pairingCodes (jsToUpper code) = some pc)
    (hsid : pc.sessionId = sid) (hexp : ¬ pc.expiresAt < now)
    (hcap : cfg.sessionMaxCount ≤ st.sessions.length) :
    completePairing cfg st code sid ip tok now = (.error .SESSION_LIMIT_REACHED, st) := by
  unfold completePairing
  rw [hget]
  simp [hsid, hexp, hcap]

theorem completePairing_sessions_length (cfg : Config) (st : ServiceState)
    (code sid : String) (ip : Option String) (tok : String) (now : Nat)
    (h : st.sessions.length ≤ cfg.sessionMaxCount) :
    (completePairing cfg st code sid ip tok now).2.sessions.length ≤ cfg.sessionMaxCount := by
  unfold completePairing
  cases mapGet st.pairingCodes (jsToUpper code) with
  | none => exact h
  | some pc =>
    by_cases h1 : pc.sessionId ≠ sid
    · simpa [h1] using h
    · by_cases h2 : pc.expiresAt < now
      · simpa [h1, h2] using h
      · by_cases h3 : cfg.sessionMaxCount ≤ st.sessions.length
        · simpa [h1, h2, h3] using h
        · simp only [h1, h2, h3, if_neg, if_pos, ite_false, ite_true]
          have hlt : st.sessions.length < cfg.sessionMaxCount := by omega
          have := mapSet_length_le st.sessions sid
            { id := sid, token := tok,
              deviceName := jsOrDefault pc.deviceName "Unknown Device",
              createdAt := now, lastUsedAt := now,
              expiresAt := now + cfg.sessionTokenExpiry * 1000,
              ipAddress := jsOrElse ip pc.ipAddress }
          simp_all
          omega

/-- Claim C4: every operation preserves the bound
`sessions.length ≤ sessionMaxCount`, and a `completePairing` call made at
capacity — with an otherwise valid, matching, unexpired code — fails with
`SESSION_LIMIT_REACHED` while leaving the state (in particular every stored
session) exactly as it was: no session is created and none is evicted. -/
theorem sessionCount_invariant (cfg : Config) (st : ServiceState) (now : Nat) :
    (∀ op : Op, st.sessions.length ≤ cfg.sessionMaxCount →
        (applyOp cfg st op now).sessions.length ≤ cfg.sessionMaxCount) ∧
    (∀ code sid ip tok pc,
        mapGet st.pairingCodes (jsToUpper code) = some pc →
        pc.sessionId = sid → ¬ pc.expiresAt < now →
        cfg.sessionMaxCount ≤ st.sessions.length →
        completePairing cfg st code sid ip tok now = (.error .SESSION_LIMIT_REACHED, st)) := by
  constructor
  · intro op h
    cases op with
    | initiate d i c s =>
      show (initiatePairing cfg st d i c s now).2.sessions.length ≤ _
      rw [initiatePairing_sessions]
      exact h
    | complete c s i t => exact completePairing_sessions_length cfg st c s i t now h
    | validate t =>
      show (validateScan cfg t now st.sessions).2.length ≤ _
      exact le_trans (validateScan_length_le cfg t now st.sessions) h
    | revoke id =>
      show (st.sessions.filter _).length ≤ _
      exact le_trans (List.length_filter_le _ _) h
    | revokeAll => simpa [applyOp, revokeAllSessions] using Nat.zero_le _
    | listSessions =>
      show (st.sessions.filter _).length ≤ _
      exact le_trans (List.length_filter_le _ _) h
    | getOne id => exact h
    | sweepCodes => exact h
    | sweepSessions =>
      show (st.sessions.filter _).length ≤ _
      exact le_trans (List.length_filter_le _ _) h
    | sweepRateLimits => exact h
  · intro code sid ip tok pc hget hsid hexp hcap
    exact completePairing_at_capacity cfg st code sid ip tok now pc hget hsid hexp hcap

/-- Sessions for the capacity scenarios. -/
def sessA : Session :=
  { id := "a", token := "ta", deviceName := "A", createdAt := 0, lastUsedAt := 0,
    expiresAt := 1000000, ipAddress := none }

/-- Second session for the capacity scenarios. -/
def sessB : Session :=
  { id := "b", token := "tb", deviceName := "B", createdAt := 0, lastUsedAt := 0,
    expiresAt := 1000000, ipAddress := none }

/-- Configuration with `sessionMaxCount = 2`. -/
def cfgTwo : Config := { sessionMaxCount := 2 }

/-- State at capacity 2 with the pairing code of `stOne` still pending. -/
def stTwo : ServiceState := ⟨[("A7K9M2", pcPhone)], [("a", sessA), ("b", sessB)], []⟩

/-- Witness for `sessionCount_invariant`: with `sessionMaxCount = 2` and two
live sessions, a third `completePairing` attempt fails with
`SESSION_LIMIT_REACHED` while exactly the two sessions remain. -/
theorem sessionCount_invariant_witness :
    (applyOp cfgTwo stTwo (.complete "A7K9M2" "s1" none "tok") 1000).sessions.length ≤
      cfgTwo.sessionMaxCount ∧
    completePairing cfgTwo stTwo "A7K9M2" "s1" none "tok" 1000 =
      (.error .SESSION_LIMIT_REACHED, stTwo) :=
  ⟨(sessionCount_invariant cfgTwo stTwo 1000).1 (.complete "A7K9M2" "s1" none "tok")
      (by decide),
   (sessionCount_invariant cfgTwo stTwo 1000).2 "A7K9M2" "s1" none "tok" pcPhone
      (by decide) (by decide) (by decide) (by decide)⟩

/-- Claim C10: the capacity check of `completePairing` counts every stored
session, including expired-but-unswept ones: when every stored session is
already expired yet the store is at capacity, completion still fails with
`SESSION_LIMIT_REACHED` although a sweep at the same instant would leave
zero live sessions. -/
theorem completePairing_counts_expired (cfg : Config) (st : ServiceState)
    (code sid : String) (ip : Option String) (tok : String) (now : Nat) (pc : PairingCode)
    (hget : mapGet st.pairingCodes (jsToUpper code) = some pc)
    (hsid : pc.sessionId = sid) (hexp : ¬ pc.expiresAt < now)
    (hcap : cfg.sessionMaxCount ≤ st.sessions.length)
    (hdead : ∀ e ∈ st.sessions, e.2.expiresAt < now) :
    completePairing cfg st code sid ip tok now = (.error .SESSION_LIMIT_REACHED, st) ∧
    (cleanupExpiredSessions st now).sessions = [] := by
  refine ⟨completePairing_at_capacity cfg st code sid ip tok now pc hget hsid hexp hcap, ?_⟩
  simp only [cleanupExpiredSessions]
  rw [List.filter_eq_nil]
  intro e he
  have := hdead e he
  simpa using this

/-- A pairing code still valid at time 2000000 ms. -/
def pcLate : PairingCode :=
  { code := "B2B2B2", sessionId := "s2", createdAt := 1900000, expiresAt := 2200000,
    deviceName := none, ipAddress := none }

/-- State at capacity 2 whose two sessions have both expired by time
2000000 ms (their `expiresAt` is 1000000) but have not been swept, and
holding the still-valid `pcLate`. -/
def stLate : ServiceState := ⟨[("B2B2B2", pcLate)], [("a", sessA), ("b", sessB)], []⟩

/-- Witness for `completePairing_counts_expired`: both stored sessions are
expired at time 2000000 (their `expiresAt` is 1000000), the pairing code is
still valid (its `expiresAt` is 300000 — so we use a fresh unexpired code),
yet completion fails with `SESSION_LIMIT_REACHED`. -/
theorem completePairing_counts_expired_witness :
    completePairing cfgTwo stLate "B2B2B2" "s2" none "tok" 2000000 =
      (.error .SESSION_LIMIT_REACHED, stLate) ∧
    (cleanupExpiredSessions stLate 2000000).sessions = [] :=
  completePairing_counts_expired cfgTwo stLate "B2B2B2" "s2" none "tok" 2000000 pcLate
    (by decide) (by decide) (by decide) (by decide) (by decide)

theorem validateScan_hit (cfg : Config) (tok : String) (now : Nat)
    (pre post : AssocMap Session) (id : String) (s : Session)
    (hpre : ∀ e ∈ pre, e.2.token ≠ tok) (htok : s.token = tok)
    (hlive : ¬ s.expiresAt < now) :
    validateScan cfg tok now (pre ++ (id, s) :: post) =
      (some (touched cfg s now), pre ++ (id, touched cfg s now) :: post) := by
  rw [validateScan_append cfg tok now pre _ hpre]
  simp [validateScan, htok, hlive]

theorem validateScan_expired (cfg : Config) (tok : String) (now : Nat)
    (pre post : AssocMap Session) (id : String) (s : Session)
    (hpre : ∀ e ∈ pre, e.2.token ≠ tok) (htok : s.token = tok)
    (hexp : s.expiresAt < now) :
    validateScan cfg tok now (pre ++ (id, s) :: post) = (none, pre ++ post) := by
  rw [validateScan_append cfg tok now pre _ hpre]
  simp [validateScan, htok, hexp]

/-- Claim C5: `validateSession` is a total function into
`Option Session × ServiceState` — it never throws — and it returns `none`
in exactly the absence cases: (a) a token held by no stored session (in
particular one never issued) yields `none` with the state untouched;
(b) after `revokeSession` of the id of the only session carrying a token,
validating that token yields `none`; (c) when the first (and only) session
carrying the token has `expiresAt < now`, validation yields `none`, deletes
exactly that session, and the session appears in no later `getSessions`
result. -/
theorem validateSession_absence (cfg : Config) (st : ServiceState) (tok : String) (now : Nat) :
    ((∀ e ∈ st.sessions, e.2.token ≠ tok) →
        validateSession cfg st tok now = (none, st)) ∧
    (∀ id, (∀ e ∈ st.sessions, e.2.token = tok → e.1 = id) →
        (validateSession cfg (revokeSession st id).2 tok now).1 = none) ∧
    (∀ pre id s post,
        st.sessions = pre ++ (id, s) :: post →
        (∀ e ∈ pre, e.2.token ≠ tok) → s.token = tok → s.expiresAt < now →
        (∀ e ∈ post, e.2.token ≠ tok) →
        validateSession cfg st tok now = (none, { st with sessions := pre ++ post }) ∧
        ∀ t2, s ∉ (getSessions { st with sessions := pre ++ post } t2).1) := by
  refine ⟨?_, ?_, ?_⟩
  · intro h
    simp [validateSession, validateScan_no_match cfg tok now st.sessions h]
  · intro id h
    have hnone : ∀ e ∈ mapDelete st.sessions id, e.2.token ≠ tok := by
      intro e he
      have hmem : e ∈ st.sessions := List.mem_of_mem_filter he
      have hkeep : e.1 ≠ id := by
        have := List.of_mem_filter he
        simpa using this
      intro hteq
      exact hkeep (h e hmem hteq)
    simp [validateSession, revokeSession,
      validateScan_no_match cfg tok now (mapDelete st.sessions id) hnone]
  · intro pre id s post hsplit hpre htok hexp hpost
    constructor
    · simp [validateSession, hsplit, validateScan_expired cfg tok now pre post id s hpre htok hexp]
    · intro t2 hmem
      simp only [getSessions, cleanupExpiredSessions, List.mem_map] at hmem
      obtain ⟨e, he, hev⟩ := hmem
      have he2 : e ∈ pre ++ post := List.mem_of_mem_filter he
      have hne : e.2.token ≠ tok := by
        rcases List.mem_append.mp he2 with h1 | h2
        · exact hpre e h1
        · exact hpost e h2
      rw [hev] at hne
      exact hne htok

/-- A live session used by the absence witness. -/
def sessLiveA : Session :=
  { id := "a", token := "ta", deviceName := "A", createdAt := 0, lastUsedAt := 0,
    expiresAt := 500000, ipAddress := none }

/-- An expired session used by the absence witness. -/
def sessExpX : Session :=
  { id := "x", token := "tx", deviceName := "X", createdAt := 0, lastUsedAt := 0,
    expiresAt := 10, ipAddress := none }

/-- State used by the absence witness. -/
def stAbs : ServiceState := ⟨[], [("a", sessLiveA)], []⟩

/-- State whose only session has expired, for the absence witness. -/
def stExp : ServiceState := ⟨[], [("x", sessExpX)], []⟩

/-- Witness for `validateSession_absence`: a never-issued token gives
`(none, unchanged)`, validating after a revoke gives `none`, and validating
an expired session's token gives `none`, deletes it, and the session is
absent from a later listing. -/
theorem validateSession_absence_witness :
    validateSession cfg0 stAbs "never-issued" 5 = (none, stAbs) ∧
    (validateSession cfg0 (revokeSession stAbs "a").2 "ta" 5).1 = none ∧
    validateSession cfg0 stExp "tx" 20 = (none, { stExp with sessions := [] ++ [] }) ∧
    sessExpX ∉ (getSessions { stExp with sessions := [] ++ [] } 30).1 := by
  have h := validateSession_absence cfg0 stExp "tx" 20
  have h3 := h.2.2 [] "x" sessExpX [] rfl (by simp) rfl (by decide) (by simp)
  exact ⟨(validateSession_absence cfg0 stAbs "never-issued" 5).1 (by decide),
    (validateSession_absence cfg0 stAbs "ta" 5).2.1 "a" (by decide),
    h3.1, h3.2 30⟩

/-- Claim C7: a successful `validateSession` maps the found session `s` to
`touched cfg s now` and leaves every other entry in place.  With sliding
expiry disabled the touch changes only `lastUsedAt` — `id`, `token`,
`deviceName`, `createdAt`, `expiresAt` and `ipAddress` are unchanged, so
`expiresAt` is identical across any number of validations; with sliding
expiry enabled it also sets `expiresAt = now + sessionTokenExpiry * 1000`,
so a second validation `t2 - t1` ms after a first leaves `expiresAt`
advanced by exactly `t2 - t1`. -/
theorem validateSession_touch (cfg : Config) (st : ServiceState) (tok : String)
    (pre post : AssocMap Session) (id : String) (s : Session) (t1 t2 : Nat)
    (hsplit : st.sessions = pre ++ (id, s) :: post)
    (hpre : ∀ e ∈ pre, e.2.token ≠ tok)
    (htok : s.token = tok) (hlive1 : ¬ s.expiresAt < t1) (h12 : t1 ≤ t2)
    (hlive2 : ¬ (touched cfg s t1).expiresAt < t2) :
    validateSession cfg st tok t1 =
      (some (touched cfg s t1),
       { st with sessions := pre ++ (id, touched cfg s t1) :: post }) ∧
    (cfg.sessionSlidingExpiry = false →
      (touched cfg s t1).id = s.id ∧ (touched cfg s t1).token = s.token ∧
      (touched cfg s t1).deviceName = s.deviceName ∧
      (touched cfg s t1).createdAt = s.createdAt ∧
      (touched cfg s t1).expiresAt = s.expiresAt ∧
      (touched cfg s t1).ipAddress = s.ipAddress ∧
      (touched cfg s t1).lastUsedAt = t1) ∧
    (cfg.sessionSlidingExpiry = true →
      (touched cfg s t1).expiresAt = t1 + cfg.sessionTokenExpiry * 1000 ∧
      (touched cfg s t1).lastUsedAt = t1) ∧
    (validateSession cfg
        { st with sessions := pre ++ (id, touched cfg s t1) :: post } tok t2).1 =
      some (touched cfg (touched cfg s t1) t2) ∧
    (cfg.sessionSlidingExpiry = false →
      (touched cfg (touched cfg s t1) t2).expiresAt = (touched cfg s t1).expiresAt) ∧
    (cfg.sessionSlidingExpiry = true →
      (touched cfg (touched cfg s t1) t2).expiresAt =
        (touched cfg s t1).expiresAt + (t2 - t1)) := by
  refine ⟨?_, ?_, ?_, ?_, ?_, ?_⟩
  · simp [validateSession, hsplit, validateScan_hit cfg tok t1 pre post id s hpre htok hlive1]
  · intro hoff
    simp [touched, hoff]
  · intro hon
    simp [touched, hon]
  · have htok1 : (touched cfg s t1).token = tok := by simpa [touched] using htok
    simp [validateSession,
      validateScan_hit cfg tok t2 pre post id (touched cfg s t1) hpre htok1 hlive2]
  · intro hoff
    simp [touched, hoff]
  · intro hon
    simp only [touched, hon, if_true]
    omega

/-- Sliding-expiry configuration for the touch witness. -/
def cfgSlide : Config := { sessionSlidingExpiry := true }

/-- State holding one live session for the touch witness. -/
def stSlide : ServiceState := ⟨[], [("a", sessLiveA)], []⟩

/-- Witness for `validateSession_touch`: with sliding expiry on, validating
token `"ta"` at times 100 and 250 touches the session both times and leaves
`expiresAt` advanced by 150 between the calls. -/
theorem validateSession_touch_witness :
    validateSession cfgSlide stSlide "ta" 100 =
      (some (touched cfgSlide sessLiveA 100),
       { stSlide with sessions := [] ++ [("a", touched cfgSlide sessLiveA 100)] ++ [] }) ∧
    (cfgSlide.sessionSlidingExpiry = false →
      (touched cfgSlide sessLiveA 100).id = sessLiveA.id ∧
      (touched cfgSlide sessLiveA 100).token = sessLiveA.token ∧
      (touched cfgSlide sessLiveA 100).deviceName = sessLiveA.deviceName ∧
      (touched cfgSlide sessLiveA 100).createdAt = sessLiveA.createdAt ∧
      (touched cfgSlide sessLiveA 100).expiresAt = sessLiveA.expiresAt ∧
      (touched cfgSlide sessLiveA 100).ipAddress = sessLiveA.ipAddress ∧
      (touched cfgSlide sessLiveA 100).lastUsedAt = 100) ∧
    (cfgSlide.sessionSlidingExpiry = true →
      (touched cfgSlide sessLiveA 100).expiresAt =
        100 + cfgSlide.sessionTokenExpiry * 1000 ∧
      (touched cfgSlide sessLiveA 100).lastUsedAt = 100) ∧
    (validateSession cfgSlide
        { stSlide with
            sessions := [] ++ [("a", touched cfgSlide sessLiveA 100)] ++ [] } "ta" 250).1 =
      some (touched cfgSlide (touched cfgSlide sessLiveA 100) 250) ∧
    (cfgSlide.sessionSlidingExpiry = false →
      (touched cfgSlide (touched cfgSlide sessLiveA 100) 250).expiresAt =
        (touched cfgSlide sessLiveA 100).expiresAt) ∧
    (cfgSlide.sessionSlidingExpiry = true →
      (touched cfgSlide (touched cfgSlide sessLiveA 100) 250).expiresAt =
        (touched cfgSlide sessLiveA 100).expiresAt + (250 - 100)) :=
  validateSession_touch cfgSlide stSlide "ta" [] [] "a" sessLiveA 100 250 rfl
    (by simp) rfl (by decide) (by omega) (by decide)

theorem checkRateLimit_pairingCodes (cfg : Config) (st : ServiceState)
    (ip : String) (now : Nat) :
    (checkRateLimit cfg st ip now).2.pairingCodes = st.pairingCodes := by
  unfold checkRateLimit
  cases mapGet st.rateLimitMap ip with
  | none => rfl
  | some limit =>
    by_cases h : limit.resetAt < now
    · simp [h]
    · by_cases h2 : cfg.pairingMaxAttempts ≤ limit.attempts <;> simp [h, h2]

/-- `initiatePairing` either rate-limits or returns the generated pair and
stores the pairing code under the generated code. -/
theorem initiatePairing_cases (cfg : Config) (st : ServiceState)
    (d ip : Option String) (c s : String) (now : Nat) :
    (initiatePairing cfg st d ip c s now).1 = .error .PAIRING_RATE_LIMITED ∨
    ((initiatePairing cfg st d ip c s now).1 = .ok ⟨c, s, cfg.pairingCodeExpiry⟩ ∧
      (initiatePairing cfg st d ip c s now).2.pairingCodes =
        mapSet st.pairingCodes c
          { code := c, sessionId := s, createdAt := now,
            expiresAt := now + cfg.pairingCodeExpiry * 1000,
            deviceName := d, ipAddress := ip }) := by
  unfold initiatePairing
  cases ip with
  | none => right; exact ⟨rfl, rfl⟩
  | some a =>
    by_cases ha : a = ""
    · right
      simp [ha]
    · have hpc := checkRateLimit_pairingCodes cfg st a now
      cases hcr : checkRateLimit cfg st a now with
      | mk b st' =>
        rw [hcr] at hpc
        cases b
        · left
          simp [ha, hcr]
        · right
          have hpc' : st'.pairingCodes = st.pairingCodes := hpc
          simp [ha, hcr, hpc']

/-- Inversion of a successful `completePairing`: the stored pairing code
matched, was unexpired, the store was under capacity, and the returned
session and state are exactly the ones the success branch builds. -/
theorem completePairing_ok (cfg : Config) (st : ServiceState)
    (code sid : String) (ip : Option String) (tok : String) (now : Nat)
    (s : Session) (st2 : ServiceState)
    (h : completePairing cfg st code sid ip tok now = (.ok s, st2)) :
    ∃ pc, mapGet st.pairingCodes (jsToUpper code) = some pc ∧ pc.sessionId = sid ∧
      ¬ pc.expiresAt < now ∧ st.sessions.length < cfg.sessionMaxCount ∧
      s = { id := sid, token := tok,
            deviceName := jsOrDefault pc.deviceName "Unknown Device",
            createdAt := now, lastUsedAt := now,
            expiresAt := now + cfg.sessionTokenExpiry * 1000,
            ipAddress := jsOrElse ip pc.ipAddress } ∧
      st2 = { st with
              sessions := mapSet st.sessions sid s,
              pairingCodes := mapDelete st.pairingCodes code } := by
  unfold completePairing at h
  split at h
  next hget =>
    injection h with hfst hsnd
    cases hfst
  next pc hget =>
    split at h
    next h1 =>
      injection h with hfst hsnd
      cases hfst
    next h1 =>
      split at h
      next h2 =>
        injection h with hfst hsnd
        cases hfst
      next h2 =>
        split at h
        next h3 =>
          injection h with hfst hsnd
          cases hfst
        next h3 =>
          injection h with h4 h5
          injection h4 with h6
          exact ⟨pc, hget, not_not.mp h1, h2, by omega, h6.symm, by rw [← h5, h6]⟩

/-- Claim C9: the correlation id is the administrative key of the session.
`initiatePairing` returns the generated correlation id and stores it in the
pairing code; a successful `completePairing` requires the stored pairing
code's `sessionId` to equal the supplied correlation id, creates the
session with `id` equal to it, stores it under that key, and `getSessions`,
`getSession` and `revokeSession` all reach the session through it. -/
theorem correlationId_is_sessionId (cfg : Config) :
    (∀ st d ip c s now r st1,
        initiatePairing cfg st d ip c s now = (.ok r, st1) →
        r.sessionId = s ∧ r.code = c ∧
        mapGet st1.pairingCodes r.code =
          some { code := c, sessionId := s, createdAt := now,
                 expiresAt := now + cfg.pairingCodeExpiry * 1000,
                 deviceName := d, ipAddress := ip }) ∧
    (∀ st code sid ip tok now s st2,
        completePairing cfg st code sid ip tok now = (.ok s, st2) →
        s.id = sid ∧
        (∃ pc, mapGet st.pairingCodes (jsToUpper code) = some pc ∧ pc.sessionId = sid) ∧
        mapGet st2.sessions sid = some s ∧
        getSession st2 sid = some s ∧
        (revokeSession st2 sid).1 = true ∧
        (∀ t2, ¬ s.expiresAt < t2 → s ∈ (getSessions st2 t2).1)) := by
  constructor
  · intro st d ip c s now r st1 h
    rcases initiatePairing_cases cfg st d ip c s now with hrl | ⟨hok, hcodes⟩
    · rw [h] at hrl
      cases hrl
    · rw [h] at hok hcodes
      simp only at hok hcodes
      injection hok with hok'
      subst hok'
      exact ⟨rfl, rfl, by rw [hcodes]; exact mapGet_mapSet_self _ _ _⟩
  · intro st code sid ip tok now s st2 h
    obtain ⟨pc, hget, hsid, hexp, hcap, hs, hst2⟩ := completePairing_ok cfg st code sid ip
      tok now s st2 h
    have hgetS : mapGet st2.sessions sid = some s := by
      rw [hst2]
      exact mapGet_mapSet_self _ _ _
    have hmem : (sid, s) ∈ st2.sessions := mapGet_mem hgetS
    refine ⟨by rw [hs], ⟨pc, hget, hsid⟩, hgetS, hgetS, by simp [revokeSession, hgetS], ?_⟩
    intro t2 hlive
    have hkeep : (sid, s) ∈ st2.sessions.filter (fun e => decide (t2 ≤ e.2.expiresAt)) := by
      rw [List.mem_filter]
      exact ⟨hmem, by simpa using Nat.le_of_not_lt hlive⟩
    simpa [getSessions, cleanupExpiredSessions] using List.mem_map_of_mem Prod.snd hkeep

/-- The session a completion of `stOne`'s code at time 1000 creates. -/
def sessDone : Session :=
  { id := "s1", token := "tok1", deviceName := "phone", createdAt := 1000,
    lastUsedAt := 1000, expiresAt := 2592001000, ipAddress := none }

/-- Witness for `correlationId_is_sessionId`: a concrete initiate followed
by a concrete complete, the created session carrying the correlation id
`"s1"` as its `id` and key. -/
theorem correlationId_is_sessionId_witness :
    ((⟨"A7K9M2", "s1", cfg0.pairingCodeExpiry⟩ : InitiateResult).sessionId = "s1" ∧
      (⟨"A7K9M2", "s1", cfg0.pairingCodeExpiry⟩ : InitiateResult).code = "A7K9M2" ∧
      mapGet stOne.pairingCodes "A7K9M2" =
        some { code := "A7K9M2", sessionId := "s1", createdAt := 0,
               expiresAt := 0 + cfg0.pairingCodeExpiry * 1000,
               deviceName := some "phone", ipAddress := none }) ∧
    (sessDone.id = "s1" ∧
      (∃ pc, mapGet stOne.pairingCodes (jsToUpper "A7K9M2") = some pc ∧
        pc.sessionId = "s1") ∧
      mapGet (⟨[], [("s1", sessDone)], []⟩ : ServiceState).sessions "s1" = some sessDone ∧
      getSession ⟨[], [("s1", sessDone)], []⟩ "s1" = some sessDone ∧
      (revokeSession ⟨[], [("s1", sessDone)], []⟩ "s1").1 = true ∧
      (∀ t2, ¬ sessDone.expiresAt < t2 →
        sessDone ∈ (getSessions ⟨[], [("s1", sessDone)], []⟩ t2).1)) :=
  ⟨(correlationId_is_sessionId cfg0).1 ⟨[], [], []⟩ (some "phone") none "A7K9M2" "s1" 0
      ⟨"A7K9M2", "s1", cfg0.pairingCodeExpiry⟩ stOne rfl,
   (correlationId_is_sessionId cfg0).2 stOne "A7K9M2" "s1" none "tok1" 1000 sessDone
      ⟨[], [("s1", sessDone)], []⟩ rfl⟩

theorem mapGet_eq_none_of_not_mem {α : Type} {l : AssocMap α} {key : String}
    (h : key ∉ l.map Prod.fst) : mapGet l key = none := by
  induction l with
  | nil => rfl
  | cons e rest ih =>
    obtain ⟨k, w⟩ := e
    simp only [List.map_cons, List.mem_cons] at h
    push_neg at h
    have hk : ¬ k = key := fun hkk => h.1 hkk.symm
    simp [mapGet, hk, ih h.2]

/-- How one `validateScan` pass relates a stored session (under unique
keys, as in a JavaScript `Map`) to its post-state binding: either it is
untouched, or it is the successfully validated session, now `touched`. -/
theorem validateScan_mapGet (cfg : Config) (tok : String) (now : Nat)
    (l : AssocMap Session) (hnd : (l.map Prod.fst).Nodup)
    (id : String) (s s' : Session)
    (hb : mapGet l id = some s)
    (ha : mapGet (validateScan cfg tok now l).2 id = some s') :
    s' = s ∨ ((validateScan cfg tok now l).1 = some s' ∧ s' = touched cfg s now) := by
  induction l with
  | nil => simp [mapGet] at hb
  | cons e rest ih =>
    obtain ⟨k, sess⟩ := e
    simp only [List.map_cons, List.nodup_cons] at hnd
    by_cases hm : sess.token = tok
    · by_cases hexp : sess.expiresAt < now
      · simp only [validateScan, hm, hexp, if_true, if_pos] at ha ⊢
        by_cases hk : k = id
        · subst hk
          rw [mapGet_eq_none_of_not_mem hnd.1] at ha
          cases ha
        · left
          simp only [mapGet, hk, if_neg, ite_false] at hb
          rw [hb] at ha
          injection ha with ha'
          exact ha'.symm
      · simp only [validateScan, hm, hexp, if_true, if_false, ite_true, ite_false] at ha ⊢
        by_cases hk : k = id
        · subst hk
          have hbs : sess = s := by simpa [mapGet] using hb
          have has' : some (touched cfg sess now) = some s' := by simpa [mapGet] using ha
          right
          refine ⟨has', ?_⟩
          injection has' with h''
          rw [← h'', hbs]
        · left
          simp only [mapGet, hk, ite_false, if_neg] at hb ha
          rw [hb] at ha
          injection ha with ha'
          exact ha'.symm
    · simp only [validateScan, hm, if_neg, ite_false] at ha ⊢
      by_cases hk : k = id
      · subst hk
        simp only [mapGet, if_pos] at hb ha
        left
        injection hb with hb'
        injection ha with ha'
        rw [← hb', ← ha']
      · simp only [mapGet, hk, ite_false, if_neg] at hb ha
        exact ih hnd.2 hb ha

/-- `completePairing` either leaves the sessions map unchanged or extends
it with the session it returns, created at `now`. -/
theorem completePairing_sessions_cases (cfg : Config) (st : ServiceState)
    (code sid : String) (ip : Option String) (tok : String) (now : Nat) :
    (completePairing cfg st code sid ip tok now).2.sessions = st.sessions ∨
    (∃ s, (completePairing cfg st code sid ip tok now).1 = .ok s ∧
      s.createdAt = now ∧ s.lastUsedAt = now ∧ s.id = sid ∧
      (completePairing cfg st code sid ip tok now).2.sessions =
        mapSet st.sessions sid s) := by
  unfold completePairing
  split
  · left; rfl
  · split
    · left; rfl
    · split
      · left; rfl
      · split
        · left; rfl
        · right
          exact ⟨_, rfl, rfl, rfl, rfl, rfl⟩

/-- Claim C8: under unique session keys (a JavaScript `Map` invariant) and
a monotone clock, a session's `lastUsedAt` never decreases across any
operation, and the only ways a stored binding changes at all are a
successful `validateSession` of its token (which sets `lastUsedAt = now`)
or a `completePairing` that rebinds the key to the brand-new session it
returns (created, with `lastUsedAt = createdAt = now`, at that instant);
`initiatePairing`, failed validations, `revokeSession`,
`revokeAllSessions`, `getSessions`, `getSession` and the sweeps never alter
any surviving session. -/
theorem lastUsedAt_monotone (cfg : Config) (st : ServiceState) (op : Op) (now : Nat)
    (hnd : (st.sessions.map Prod.fst).Nodup)
    (id : String) (s s' : Session)
    (hb : mapGet st.sessions id = some s)
    (ha : mapGet (applyOp cfg st op now).sessions id = some s') :
    (s.lastUsedAt ≤ now → s.lastUsedAt ≤ s'.lastUsedAt) ∧
    (s' = s ∨
      (s'.lastUsedAt = now ∧
        ((∃ tok, op = .validate tok ∧ (validateSession cfg st tok now).1 = some s') ∨
         (∃ c sid ip t, op = .complete c sid ip t ∧
            (completePairing cfg st c sid ip t now).1 = .ok s' ∧
            s'.createdAt = now)))) := by
  suffices hmain : s' = s ∨
      (s'.lastUsedAt = now ∧
        ((∃ tok, op = .validate tok ∧ (validateSession cfg st tok now).1 = some s') ∨
         (∃ c sid ip t, op = .complete c sid ip t ∧
            (completePairing cfg st c sid ip t now).1 = .ok s' ∧
            s'.createdAt = now))) by
    refine ⟨?_, hmain⟩
    intro hle
    rcases hmain with rfl | ⟨heq, _⟩
    · exact le_refl _
    · rw [heq]
      exact hle
  cases op with
  | initiate d i c sid =>
    left
    have hsess := initiatePairing_sessions cfg st d i c sid now
    have ha2 : mapGet (initiatePairing cfg st d i c sid now).2.sessions id = some s' := ha
    rw [hsess, hb] at ha2
    injection ha2 with ha'
    exact ha'.symm
  | complete c sid i t =>
    have ha2 : mapGet (completePairing cfg st c sid i t now).2.sessions id = some s' := ha
    rcases completePairing_sessions_cases cfg st c sid i t now with
      hsame | ⟨snew, hres, hcr, hlu, _, hset⟩
    · left
      rw [hsame, hb] at ha2
      injection ha2 with ha'
      exact ha'.symm
    · rw [hset, mapGet_mapSet] at ha2
      by_cases hk : sid = id
      · rw [if_pos hk] at ha2
        injection ha2 with ha'
        subst ha'
        right
        exact ⟨hlu, Or.inr ⟨c, sid, i, t, rfl, hres, hcr⟩⟩
      · rw [if_neg hk, hb] at ha2
        injection ha2 with ha'
        exact Or.inl ha'.symm
  | validate tok =>
    have ha2 : mapGet (validateScan cfg tok now st.sessions).2 id = some s' := ha
    rcases validateScan_mapGet cfg tok now st.sessions hnd id s s' hb ha2 with h | ⟨hres, htch⟩
    · exact Or.inl h
    · right
      refine ⟨by rw [htch]; rfl, Or.inl ⟨tok, rfl, hres⟩⟩
  | revoke rid =>
    left
    have ha2 : mapGet (mapDelete st.sessions rid) id = some s' := ha
    rw [mapGet_mapDelete] at ha2
    by_cases hk : id = rid
    · rw [if_pos hk] at ha2
      cases ha2
    · rw [if_neg hk, hb] at ha2
      injection ha2 with ha'
      exact ha'.symm
  | revokeAll =>
    have ha2 : mapGet ([] : AssocMap Session) id = some s' := ha
    cases ha2
  | listSessions =>
    left
    have := mapGet_filter_nodup hnd ha
    rw [hb] at this
    injection this with h'
    exact h'.symm
  | getOne gid =>
    left
    have ha2 : mapGet st.sessions id = some s' := ha
    rw [hb] at ha2
    injection ha2 with ha'
    exact ha'.symm
  | sweepCodes =>
    left
    have ha2 : mapGet st.sessions id = some s' := ha
    rw [hb] at ha2
    injection ha2 with ha'
    exact ha'.symm
  | sweepSessions =>
    left
    have := mapGet_filter_nodup hnd ha
    rw [hb] at this
    injection this with h'
    exact h'.symm
  | sweepRateLimits =>
    left
    have ha2 : mapGet st.sessions id = some s' := ha
    rw [hb] at ha2
    injection ha2 with ha'
    exact ha'.symm

/-- Witness for `lastUsedAt_monotone`: a successful validation of token
`"ta"` at time 100 touches the session stored at `"a"`. -/
theorem lastUsedAt_monotone_witness :
    (sessLiveA.lastUsedAt ≤ 100 →
      sessLiveA.lastUsedAt ≤ (touched cfg0 sessLiveA 100).lastUsedAt) ∧
    (touched cfg0 sessLiveA 100 = sessLiveA ∨
      ((touched cfg0 sessLiveA 100).lastUsedAt = 100 ∧
        ((∃ tok, (Op.validate "ta" : Op) = .validate tok ∧
            (validateSession cfg0 stAbs tok 100).1 = some (touched cfg0 sessLiveA 100)) ∨
         (∃ c sid ip t, (Op.validate "ta" : Op) = .complete c sid ip t ∧
            (completePairing cfg0 stAbs c sid ip t 100).1 =
              .ok (touched cfg0 sessLiveA 100) ∧
            (touched cfg0 sessLiveA 100).createdAt = 100)))) :=
  lastUsedAt_monotone cfg0 stAbs (.validate "ta") 100 (by decide) "a" sessLiveA
    (touched cfg0 sessLiveA 100) (by decide) (by decide)

end PairingSvc
